import Mathlib

/-!
Verification development for the friends bot-likelihood reporting pipeline.

The Python source is embedded shallowly:
- Botometer score payloads become the structure Payload; the Python dict
  operations pop and item lookup become Option matches, and a missing key
  becomes the KeyError outcome.
- The generator api.check_accounts_in is modelled by a list of FetchStep
  events: each yielded (friend_id, results) pair is a yield event, and a
  transport-level exception escaping the generator is a raiseExc event.
- The collector get_friends_bot_likelihood_scores (src/modules/botm.py)
  becomes a pure function from the event list to a BotmOutcome: either the
  returned list of accumulated records, or the terminating-error path that
  logs and returns None.
- tweepy pagination (src/modules/twitter.py) is modelled likewise by
  PageStep events; Python attribute lookup on the helpers module is an
  explicit lookup in the list of names that module defines.
-/

namespace FYP

/-- Python exception kinds relevant to the embedded code paths. -/
inductive PyExc
  | keyError
  | attributeError
  | valueError
deriving DecidableEq, Repr

/-- The user_data object nested in a Botometer response. -/
structure UserData where
  id_str : Option String
  screen_name : Option String
deriving DecidableEq, Repr

/-- The user object nested in a Botometer response. -/
structure UserObj where
  majority_lang : Option String
  user_data : Option UserData
deriving DecidableEq, Repr

/-- A Botometer per-item response dictionary. Fields the code reads are
explicit; a field being none models the key being absent from the dict.
The values of cap, raw_scores and display_scores are never inspected by
the code, only their presence, so they are modelled as Option Unit. -/
structure Payload where
  error : Option String
  cap : Option Unit
  raw_scores : Option Unit
  display_scores : Option Unit
  user : Option UserObj
deriving DecidableEq, Repr

/-- Python truthiness of results.get error-key access: None and the empty
string are falsy, every other string is truthy. -/
def truthyStr : Option String → Bool
  | none => false
  | some s => !(s == "")

/-- The lookup results user user_data screen_name, where any missing key
along the path is a failure (modelled below as KeyError). -/
def screenNameOf (p : Payload) : Option String :=
  p.user.bind (fun u => u.user_data.bind (fun d => d.screen_name))

/-- The id_str of the user carried inside a payload. -/
def userIdOf (p : Payload) : Option String :=
  p.user.bind (fun u => u.user_data.bind (fun d => d.id_str))

/-- The payload after results.pop cap and results.pop raw_scores. -/
def popped (p : Payload) : Payload :=
  { p with cap := none, raw_scores := none }

/-- One loop-body iteration of get_friends_bot_likelihood_scores on the
yielded results dictionary: an in-band error payload is logged and skipped
(ok none); otherwise the code pops cap and raw_scores and reads
screen_name, so a payload missing any of those keys raises KeyError;
a well-formed success appends the popped payload (ok (some record)). -/
def processResult (p : Payload) : Except PyExc (Option Payload) :=
  match truthyStr p.error with
  | true => Except.ok none
  | false =>
    match p.cap with
    | none => Except.error PyExc.keyError
    | some _ =>
      match p.raw_scores with
      | none => Except.error PyExc.keyError
      | some _ =>
        match screenNameOf p with
        | none => Except.error PyExc.keyError
        | some _ => Except.ok (some (popped p))

/-- One event of the check_accounts_in generator as observed by the
collector: either it yields a (friend_id, results) pair, or a transport
exception escapes it. -/
inductive FetchStep
  | yield (friend_id : Int) (results : Payload)
  | raiseExc
deriving DecidableEq, Repr

/-- Outcome of the collector: the Python function either returns the
accumulated list (normal path and the except path agree on this when the
list is non-empty) or logs a terminating error and falls through
returning None. -/
inductive BotmOutcome
  | returned (scores : List Payload)
  | noneLoggedError
deriving DecidableEq, Repr

/-- The shared tail of both exits of get_friends_bot_likelihood_scores:
return the list when it is non-empty, otherwise log a terminating error
(the None return path). -/
def finishCheck (acc : List Payload) : BotmOutcome :=
  if acc = [] then BotmOutcome.noneLoggedError else BotmOutcome.returned acc

/-- The main loop of get_friends_bot_likelihood_scores. Processing stops
at a transport exception or at a loop-body exception (both are caught by
the same except clause), running finishCheck on what was accumulated. -/
def collectLoop : List FetchStep → List Payload → BotmOutcome
  | [], acc => finishCheck acc
  | FetchStep.raiseExc :: _, acc => finishCheck acc
  | FetchStep.yield _ p :: rest, acc =>
    match processResult p with
    | Except.error _ => finishCheck acc
    | Except.ok none => collectLoop rest acc
    | Except.ok (some r) => collectLoop rest (acc ++ [r])

/-- get_friends_bot_likelihood_scores from src/modules/botm.py, as a
function of the event trace produced by check_accounts_in. -/
def get_friends_bot_likelihood_scores (steps : List FetchStep) : BotmOutcome :=
  collectLoop steps []

/-- A step the loop survives: a yielded payload whose processing does not
raise (either a logged in-band error skip or an appended record). -/
def goodStep : FetchStep → Bool
  | FetchStep.raiseExc => false
  | FetchStep.yield _ p =>
    match processResult p with
    | Except.ok _ => true
    | Except.error _ => false

/-- The record a step contributes to the accumulated list, if any. -/
def stepRecord : FetchStep → Option Payload
  | FetchStep.raiseExc => none
  | FetchStep.yield _ p =>
    match processResult p with
    | Except.ok (some r) => some r
    | _ => none

/-- A fully successful example payload for a given friend id and screen
name, shaped like the Botometer v4 JSON response. -/
def okPayload (sn : String) (fid : Int) : Payload :=
  { error := none
    cap := some ()
    raw_scores := some ()
    display_scores := some ()
    user := some
      { majority_lang := some "en"
        user_data := some { id_str := some (toString fid), screen_name := some sn } } }

/-- An in-band error payload as yielded by check_accounts_in when a
TweepError or NoTimelineError occurred for one account. -/
def errPayload (msg : String) : Payload :=
  { error := some msg
    cap := none
    raw_scores := none
    display_scores := none
    user := none }

/-- A payload processed without raising contributes exactly its stepRecord
and the loop continues: collectLoop distributes over a prefix of good
steps, appending their records to the accumulator. -/
theorem collectLoop_append (pre rest : List FetchStep) (acc : List Payload)
    (h : ∀ e ∈ pre, goodStep e = true) :
    collectLoop (pre ++ rest) acc = collectLoop rest (acc ++ pre.filterMap stepRecord) := by
  induction pre generalizing acc with
  | nil => simp
  | cons e pre ih =>
    have he : goodStep e = true := h e (List.mem_cons_self _ _)
    have hrest : ∀ x ∈ pre, goodStep x = true := fun x hx => h x (List.mem_cons_of_mem _ hx)
    cases e with
    | raiseExc => simp [goodStep] at he
    | yield i p =>
      cases hpr : processResult p with
      | error err => simp [goodStep, hpr] at he
      | ok o =>
        cases o with
        | none =>
          rw [List.cons_append]
          simp only [collectLoop, hpr]
          rw [ih _ hrest]
          simp [stepRecord, hpr]
        | some r =>
          rw [List.cons_append]
          simp only [collectLoop, hpr]
          rw [ih _ hrest]
          simp [stepRecord, hpr]

/-- A fully successful payload is processed into its popped record. -/
theorem processResult_okPayload (sn : String) (fid : Int) :
    processResult (okPayload sn fid) = Except.ok (some (popped (okPayload sn fid))) := rfl

/-- Any record produced by processResult is the popped input payload. -/
theorem processResult_ok_some (p r : Payload) (h : processResult p = Except.ok (some r)) :
    r = popped p := by
  unfold processResult at h
  cases htr : truthyStr p.error with
  | true => rw [htr] at h; simp at h
  | false =>
    rw [htr] at h
    cases hc : p.cap with
    | none => rw [hc] at h; simp at h
    | some u =>
      rw [hc] at h
      cases hrw : p.raw_scores with
      | none => rw [hrw] at h; simp at h
      | some u2 =>
        rw [hrw] at h
        cases hs : screenNameOf p with
        | none => rw [hs] at h; simp at h
        | some sn =>
          rw [hs] at h
          simp at h
          exact h.symm

/-- A step whose processing does not raise is a good step. -/
theorem goodStep_of_ok {f : Int} {p : Payload} {o : Option Payload}
    (h : processResult p = Except.ok o) : goodStep (FetchStep.yield f p) = true := by
  simp [goodStep, h]

/-- C1: if the scoring transport raises (connection error, HTTP error,
timeout, or any other exception) after a prefix of items was processed
without raising, the collector neither propagates the exception nor
discards accumulated work: with k accumulated records it returns exactly
those k records when k is positive, and reports the empty-due-to-error
terminating path when k is zero. -/
theorem transport_fault_returns_accumulated (pre post : List FetchStep)
    (h : ∀ e ∈ pre, goodStep e = true) :
    get_friends_bot_likelihood_scores (pre ++ FetchStep.raiseExc :: post) =
      (if pre.filterMap stepRecord = [] then BotmOutcome.noneLoggedError
       else BotmOutcome.returned (pre.filterMap stepRecord)) := by
  unfold get_friends_bot_likelihood_scores
  rw [collectLoop_append pre (FetchStep.raiseExc :: post) [] h]
  simp [collectLoop, finishCheck]

theorem transport_fault_returns_accumulated_witness :
    get_friends_bot_likelihood_scores
        ([FetchStep.yield 1 (okPayload "alice" 1)] ++ FetchStep.raiseExc :: []) =
      BotmOutcome.returned [popped (okPayload "alice" 1)] := by
  have h := transport_fault_returns_accumulated
    [FetchStep.yield 1 (okPayload "alice" 1)] [] (by decide)
  exact h.trans (by decide)

/-- Under a fully successful oracle the records contributed by the mapped
steps are exactly the popped oracle payloads, in order. -/
theorem filterMap_stepRecord_of_ok (oracle : Int → Payload) (l : List Int)
    (h : ∀ f ∈ l, ∃ r, processResult (oracle f) = Except.ok (some r)) :
    (l.map (fun f => FetchStep.yield f (oracle f))).filterMap stepRecord
      = l.map (fun f => popped (oracle f)) := by
  induction l with
  | nil => simp
  | cons f l ih =>
    obtain ⟨r, hr⟩ := h f (List.mem_cons_self _ _)
    have hrfl : r = popped (oracle f) := processResult_ok_some (oracle f) r hr
    have hrec : stepRecord (FetchStep.yield f (oracle f)) = some (popped (oracle f)) := by
      simp only [stepRecord, hr, hrfl]
    simp [List.filterMap_cons, hrec, ih (fun x hx => h x (List.mem_cons_of_mem _ hx))]

/-- The user id carried by a payload is unchanged by popping
cap and raw_scores. -/
theorem userIdOf_popped (p : Payload) : userIdOf (popped p) = userIdOf p := rfl

/-- C2: for every non-empty friends list, when the scoring API is fully
available (every per-item response processes into a record and carries the
id of the queried friend), the returned sequence has length exactly N and
every record identifier is one of the requested friend identifiers. -/
theorem full_availability_scores_all (friends : List Int) (oracle : Int → Payload)
    (hne : friends ≠ [])
    (hgood : ∀ f ∈ friends, ∃ r, processResult (oracle f) = Except.ok (some r))
    (hid : ∀ f ∈ friends, userIdOf (oracle f) = some (toString f)) :
    ∃ L, get_friends_bot_likelihood_scores
          (friends.map (fun f => FetchStep.yield f (oracle f))) = BotmOutcome.returned L
      ∧ L.length = friends.length
      ∧ ∀ r ∈ L, ∃ f ∈ friends, userIdOf r = some (toString f) := by
  have hsteps : ∀ e ∈ friends.map (fun f => FetchStep.yield f (oracle f)),
      goodStep e = true := by
    intro e he
    simp only [List.mem_map] at he
    obtain ⟨f, hf, rfl⟩ := he
    obtain ⟨r, hr⟩ := hgood f hf
    exact goodStep_of_ok hr
  have h1 : get_friends_bot_likelihood_scores
      (friends.map (fun f => FetchStep.yield f (oracle f))) =
      finishCheck ((friends.map (fun f => FetchStep.yield f (oracle f))).filterMap stepRecord) := by
    unfold get_friends_bot_likelihood_scores
    have h2 := collectLoop_append (friends.map (fun f => FetchStep.yield f (oracle f))) [] [] hsteps
    simpa [collectLoop] using h2
  rw [filterMap_stepRecord_of_ok oracle friends hgood] at h1
  refine ⟨friends.map (fun f => popped (oracle f)), ?_, by simp, ?_⟩
  · rw [h1]
    unfold finishCheck
    rw [if_neg (by simp [hne])]
  · intro r hr
    simp only [List.mem_map] at hr
    obtain ⟨f, hf, rfl⟩ := hr
    exact ⟨f, hf, by rw [userIdOf_popped, hid f hf]⟩

theorem full_availability_scores_all_witness :
    ∃ L, get_friends_bot_likelihood_scores
          (([1, 2] : List Int).map (fun f => FetchStep.yield f (okPayload "u" f))) =
            BotmOutcome.returned L
      ∧ L.length = 2
      ∧ ∀ r ∈ L, ∃ f ∈ ([1, 2] : List Int), userIdOf r = some (toString f) := by
  obtain ⟨L, h1, h2, h3⟩ := full_availability_scores_all [1, 2] (fun f => okPayload "u" f)
    (by decide)
    (fun f _ => ⟨popped (okPayload "u" f), processResult_okPayload "u" f⟩)
    (fun f _ => rfl)
  exact ⟨L, h1, by simpa using h2, h3⟩

/-- C4: a response carrying an in-band error payload is logged and skipped
(the loop appends no record for that identifier and continues with the
next), and concretely for friends 1, 2, 3 with 1 and 3 succeeding and 2
failing in-band, the collector returns exactly the two records for 1 and
3, omitting 2, through the normal non-fatal return path. -/
theorem inband_error_skips (fid : Int) (p : Payload) (rest : List FetchStep)
    (acc : List Payload) (h : truthyStr p.error = true) :
    processResult p = Except.ok none
    ∧ collectLoop (FetchStep.yield fid p :: rest) acc = collectLoop rest acc
    ∧ get_friends_bot_likelihood_scores
        [FetchStep.yield 1 (okPayload "u1" 1),
         FetchStep.yield 2 (errPayload "err"),
         FetchStep.yield 3 (okPayload "u3" 3)] =
        BotmOutcome.returned [popped (okPayload "u1" 1), popped (okPayload "u3" 3)] := by
  have hpr : processResult p = Except.ok none := by
    unfold processResult
    rw [h]
  exact ⟨hpr, by simp only [collectLoop, hpr], by decide⟩

theorem inband_error_skips_witness :
    processResult (errPayload "x") = Except.ok none
    ∧ collectLoop [FetchStep.yield 2 (errPayload "x")] [] = collectLoop [] [] := by
  have h := inband_error_skips 2 (errPayload "x") [] [] (by decide)
  exact ⟨h.1, h.2.1⟩

/-- C10: every appended record is the successful response payload with the
cap and raw_scores keys removed, and a successful (non-error) response
missing cap, raw_scores, or the nested user user_data screen_name path
raises KeyError out of the unguarded pops and lookup, diverting the run
into the exception handler, which finishes with whatever was accumulated
before that item. -/
theorem record_shape_and_unguarded_pops (p r : Payload) (fid : Int)
    (pre rest : List FetchStep) (hpre : ∀ e ∈ pre, goodStep e = true) :
    (processResult p = Except.ok (some r) →
       r = popped p ∧ r.cap = none ∧ r.raw_scores = none)
    ∧ (truthyStr p.error = false →
       (p.cap = none ∨ p.raw_scores = none ∨ screenNameOf p = none) →
       processResult p = Except.error PyExc.keyError ∧
       get_friends_bot_likelihood_scores (pre ++ FetchStep.yield fid p :: rest) =
         (if pre.filterMap stepRecord = [] then BotmOutcome.noneLoggedError
          else BotmOutcome.returned (pre.filterMap stepRecord))) := by
  constructor
  · intro h
    have hr := processResult_ok_some p r h
    exact ⟨hr, by rw [hr]; rfl, by rw [hr]; rfl⟩
  · intro he hmiss
    have herr : processResult p = Except.error PyExc.keyError := by
      unfold processResult
      rw [he]
      cases hc : p.cap with
      | none => rfl
      | some u =>
        cases hrw : p.raw_scores with
        | none => rfl
        | some u2 =>
          cases hs : screenNameOf p with
          | none => rfl
          | some sn =>
            exfalso
            rcases hmiss with h1 | h1 | h1
            · rw [h1] at hc; cases hc
            · rw [h1] at hrw; cases hrw
            · rw [h1] at hs; cases hs
    refine ⟨herr, ?_⟩
    unfold get_friends_bot_likelihood_scores
    rw [collectLoop_append pre (FetchStep.yield fid p :: rest) [] hpre]
    simp [collectLoop, herr, finishCheck]

theorem record_shape_and_unguarded_pops_witness :
    processResult
        { error := none, cap := none, raw_scores := some (), display_scores := some (),
          user := some { majority_lang := none,
                         user_data := some { id_str := some "9", screen_name := some "x" } } } =
      Except.error PyExc.keyError
    ∧ get_friends_bot_likelihood_scores
        ([FetchStep.yield 1 (okPayload "a" 1)] ++ FetchStep.yield 2
          { error := none, cap := none, raw_scores := some (), display_scores := some (),
            user := some { majority_lang := none,
                           user_data := some { id_str := some "9", screen_name := some "x" } } } :: []) =
        BotmOutcome.returned [popped (okPayload "a" 1)] := by
  have h := (record_shape_and_unguarded_pops
      { error := none, cap := none, raw_scores := some (), display_scores := some (),
        user := some { majority_lang := none,
                       user_data := some { id_str := some "9", screen_name := some "x" } } }
      (okPayload "a" 1) 2 [FetchStep.yield 1 (okPayload "a" 1)] []
      (by decide)).2 rfl (Or.inl rfl)
  exact ⟨h.1, h.2.trans (by decide)⟩

/-! Embedding of get_friends_ids from src/modules/twitter.py. The tweepy
Cursor iteration is a list of PageStep events; the body appends each
yielded id, and a TweepError ends the loop (it is caught and logged).
After the page-fetch phase the source calls helpers.check_list_populated;
Python resolves that attribute against the names module helpers defines,
so the embedding performs that lookup explicitly. -/

/-- One event of the tweepy Cursor iteration: a yielded friend id, or a
TweepError raised by the page fetch (caught by the except clause). -/
inductive PageStep
  | friendId (i : Int)
  | tweepError
deriving DecidableEq, Repr

/-- The pagination loop of get_friends_ids: accumulate ids until the
iterator ends or a TweepError is caught. Either way control continues
after the try statement with the accumulated list. -/
def pageLoop : List PageStep → List Int → List Int
  | [], acc => acc
  | PageStep.tweepError :: _, acc => acc
  | PageStep.friendId i :: rest, acc => pageLoop rest (acc ++ [i])

/-- The names defined by module src/modules/helpers.py: its imports and
its function definitions. -/
def helpersModuleAttrs : List String :=
  ["loguru", "os", "typing", "datetime", "pycountry", "jinja2", "smtplib", "ssl", "email",
   "check_log_record_level", "init_log_handler", "get_env_vars", "get_api_creds",
   "get_email_creds", "get_datetime", "get_lang_from_code", "create_report_dir",
   "render_report", "dump_report", "send_email_report"]

/-- Python attribute lookup on a module: AttributeError when the name is
not defined by the module. -/
def moduleAttrLookup (attrs : List String) (name : String) : Except PyExc Unit :=
  if name ∈ attrs then Except.ok () else Except.error PyExc.attributeError

/-- Outcome of get_friends_ids: the returned ids list, the logged
terminating no-friends path returning None, or an uncaught exception. -/
inductive FriendsOutcome
  | returned (ids : List Int)
  | noneLoggedError
  | raised (e : PyExc)
deriving DecidableEq, Repr

/-- get_friends_ids from src/modules/twitter.py: run the paginated fetch,
then check the accumulated list by calling helpers.check_list_populated.
The attribute lookup happens before any call can be made; if it resolves,
the intended populated check would return the non-empty list or log the
terminating no-friends error. -/
def get_friends_ids (steps : List PageStep) : FriendsOutcome :=
  let ids := pageLoop steps []
  match moduleAttrLookup helpersModuleAttrs "check_list_populated" with
  | Except.error e => FriendsOutcome.raised e
  | Except.ok _ =>
    if ids = [] then FriendsOutcome.noneLoggedError else FriendsOutcome.returned ids

/-- C3: whether the pagination loop finishes normally or a TweepError is
caught, the subsequent check resolves helpers.check_list_populated, which
module helpers does not define, so every call of get_friends_ids raises
AttributeError and never returns the collected ids list. -/
theorem friends_ids_always_attribute_error (steps : List PageStep) :
    ("check_list_populated" ∈ helpersModuleAttrs → False)
    ∧ get_friends_ids steps = FriendsOutcome.raised PyExc.attributeError
    ∧ ∀ ids, get_friends_ids steps ≠ FriendsOutcome.returned ids := by
  have hmem : ("check_list_populated" ∈ helpersModuleAttrs) = False := by decide
  have hlookup : moduleAttrLookup helpersModuleAttrs "check_list_populated" =
      Except.error PyExc.attributeError := rfl
  refine ⟨fun hc => hmem ▸ hc, ?_, ?_⟩
  · unfold get_friends_ids
    rw [hlookup]
  · intro ids
    unfold get_friends_ids
    rw [hlookup]
    intro hcontra
    cases hcontra

theorem friends_ids_always_attribute_error_witness :
    get_friends_ids [PageStep.friendId 7] = FriendsOutcome.raised PyExc.attributeError ∧
    get_friends_ids [PageStep.friendId 7] ≠ FriendsOutcome.returned [7] := by
  have h := friends_ids_always_attribute_error [PageStep.friendId 7]
  exact ⟨h.2.1, h.2.2 [7]⟩

/-- C5: the failing input for the zero-friends condition. An account whose
page-fetch phase completes with an empty friends list does not produce the
distinct AccountHasNoFriends terminal condition (the logged no-friends
path): it raises AttributeError instead, because the populated check calls
the missing helpers.check_list_populated. The fetch-failure path (a caught
TweepError, which logs the distinct fetch-failure message first) ends in
the same AttributeError. -/
theorem zero_friends_raises_instead_of_no_friends_condition :
    get_friends_ids [] = FriendsOutcome.raised PyExc.attributeError
    ∧ get_friends_ids [] ≠ FriendsOutcome.noneLoggedError
    ∧ get_friends_ids [PageStep.tweepError] = FriendsOutcome.raised PyExc.attributeError := by
  decide

/-! Embedding of the helper functions from src/modules/helpers.py. -/

/-- Model of the pycountry ISO 639-1 language database consulted by
pycountry.languages.get with the alpha_2 keyword: a finite table from
two-letter codes to language names. Restricted to a representative set of
real entries; every string outside the table resolves to none, as
pycountry returns None for unrecognized or malformed codes. -/
def iso639Alpha2 : List (String × String) :=
  [("en", "English"), ("de", "German"), ("fr", "French"), ("es", "Spanish"),
   ("it", "Italian"), ("nl", "Dutch"), ("pt", "Portuguese"), ("ru", "Russian"),
   ("ja", "Japanese"), ("zh", "Chinese")]

/-- pycountry.languages.get with the alpha_2 keyword: the name of the
language for a recognized two-letter code, otherwise none. -/
def pycountryLanguagesGet (alpha2 : String) : Option String :=
  (iso639Alpha2.find? (fun kv => kv.1 == alpha2)).map Prod.snd

/-- get_lang_from_code from src/modules/helpers.py: look the code up via
pycountry and return the language name, or the string Unknown when the
lookup returns None. -/
def get_lang_from_code (lang_code : String) : String :=
  match pycountryLanguagesGet lang_code with
  | some language => language
  | none => "Unknown"

/-- C6: get_lang_from_code maps en to English, de to German and fr to
French, and returns Unknown for every input the language database does not
recognize, including the empty string, the unrecognized two-letter code xx
and arbitrary non-code strings. -/
theorem lang_code_resolution (s : String) (hs : pycountryLanguagesGet s = none) :
    get_lang_from_code "en" = "English"
    ∧ get_lang_from_code "de" = "German"
    ∧ get_lang_from_code "fr" = "French"
    ∧ get_lang_from_code "" = "Unknown"
    ∧ get_lang_from_code "xx" = "Unknown"
    ∧ get_lang_from_code s = "Unknown" := by
  refine ⟨rfl, rfl, rfl, rfl, rfl, ?_⟩
  unfold get_lang_from_code
  rw [hs]

theorem lang_code_resolution_witness :
    get_lang_from_code "This is not a language code" = "Unknown" := by
  exact (lang_code_resolution "This is not a language code" (by decide)).2.2.2.2.2

/-- The filesystem as the report functions observe it: the set of existing
directories and the files written with their contents. -/
structure FS where
  dirs : List String
  files : List (String × String)
deriving DecidableEq, Repr

/-- create_report_dir from src/modules/helpers.py: create the reports
directory when it does not exist, then return its path. The OSError
branch is not modelled; the claims concern the successful path. -/
def create_report_dir (fs : FS) (reports_dir : String) : FS × String :=
  if reports_dir ∈ fs.dirs then (fs, reports_dir)
  else ({ fs with dirs := reports_dir :: fs.dirs }, reports_dir)

/-- dump_report from src/modules/helpers.py: ensure the reports directory
exists, build the report file path from the username, write the render to
that path, and return the path. -/
def dump_report (fs : FS) (report_render username reports_dir : String) : FS × String :=
  let created := create_report_dir fs reports_dir
  let report_file_path := created.2 ++ "/@" ++ username ++ "_friends_report.html"
  ({ created.1 with files := (report_file_path, report_render) :: created.1.files },
   report_file_path)

/-- C7 counterexample: for account alice, dump_report returns the path
ending in friends_report.html, not the claimed
friends_bot_likelihood_report.html, and writes no file under the claimed
name. -/
theorem dump_report_name_counterexample :
    (dump_report ⟨[], []⟩ "<html>" "alice" "reports").2
        = "reports/@alice_friends_report.html"
    ∧ (dump_report ⟨[], []⟩ "<html>" "alice" "reports").2
        ≠ "reports/@alice_friends_bot_likelihood_report.html"
    ∧ ((dump_report ⟨[], []⟩ "<html>" "alice" "reports").1.files.map Prod.fst).contains
        "reports/@alice_friends_bot_likelihood_report.html" = false := by
  decide

/-- C7 amended: for every account name, dump_report writes the rendered
HTML to the file named with the at-sign, the account and the suffix
_friends_report.html inside the reports directory, creating that
directory if absent, and returns that file path. -/
theorem dump_report_writes_named_file (fs : FS) (html username rdir : String) :
    (dump_report fs html username rdir).2 = rdir ++ "/@" ++ username ++ "_friends_report.html"
    ∧ ((dump_report fs html username rdir).2, html) ∈ (dump_report fs html username rdir).1.files
    ∧ rdir ∈ (dump_report fs html username rdir).1.dirs := by
  unfold dump_report create_report_dir
  by_cases h : rdir ∈ fs.dirs
  · simp [h]
  · simp [h]

/-- Modelled from the spec: the report template file
src/template/report_template.html is not under src. Per the spec the
template shows, for each score record, the friend display name and the
language resolved through get_lang_from_code, defaulting when optional
fields are absent, so one record renders to one table row without
faulting. -/
def renderRecordRow (p : Payload) : String :=
  let sn := (screenNameOf p).getD ""
  let lang := get_lang_from_code ((p.user.bind (fun u => u.majority_lang)).getD "")
  "<tr><td>@" ++ sn ++ "</td><td>" ++ lang ++ "</td></tr>"

/-- Modelled from the spec: template iteration over the score record
sequence, in the Except monad so that a faulting substitution would
surface as an error. -/
def renderRows : List Payload → Except PyExc String
  | [] => Except.ok ""
  | p :: rest =>
    match renderRows rest with
    | Except.error e => Except.error e
    | Except.ok tail => Except.ok (renderRecordRow p ++ tail)

/-- render_report from src/modules/helpers.py: substitute the username,
the score records and the datetime string into the report template. The
ambient clock read by get_datetime is passed as the clock argument. -/
def render_report (clock username : String) (scores : List Payload) : Except PyExc String :=
  match renderRows scores with
  | Except.error e => Except.error e
  | Except.ok rows =>
    Except.ok ("<h1>Friends bot likelihood report for @" ++ username ++ "</h1>"
      ++ "<p>Generated " ++ clock ++ "</p><table>" ++ rows ++ "</table>")

/-- C8: report rendering is total: for every timestamp string, every
account name (both including the empty string) and every well-formed,
possibly empty, score record sequence, rendering succeeds and returns a
string; it never faults on empty or missing optional fields. -/
theorem render_report_total (clock username : String) (scores : List Payload) :
    ∃ s, render_report clock username scores = Except.ok s := by
  have h : ∃ rows, renderRows scores = Except.ok rows := by
    induction scores with
    | nil => exact ⟨"", rfl⟩
    | cons p rest ih =>
      obtain ⟨rows, hr⟩ := ih
      exact ⟨renderRecordRow p ++ rows, by simp [renderRows, hr]⟩
  obtain ⟨rows, hr⟩ := h
  exact ⟨_, by unfold render_report; rw [hr]⟩

/-- Python dict insertion: an existing key is updated in place, a new key
is appended at the end, preserving insertion order. -/
def dictInsert (d : List (String × String)) (k v : String) : List (String × String) :=
  if d.any (fun p => p.1 == k) then
    d.map (fun p => if p.1 == k then (k, v) else p)
  else d ++ [(k, v)]

/-- get_env_vars from src/modules/helpers.py: for each requested name in
order, read the process environment; a present variable is added to the
dictionary, an absent one is only logged. The function body contains no
raise statement, so the result is always the ok dictionary. -/
def get_env_vars (environ : String → Option String) (env_vars : List String) :
    Except PyExc (List (String × String)) :=
  Except.ok (env_vars.foldl
    (fun d n =>
      match environ n with
      | some v => dictInsert d n v
      | none => d) [])

/-- The env-var loop over distinct names appends exactly the present
names with their values, in request order, after any accumulator whose
keys avoid the requested names. -/
theorem env_foldl_eq (environ : String → Option String) :
    ∀ (names : List String) (acc : List (String × String)),
      names.Nodup → (∀ n ∈ names, ∀ kv ∈ acc, kv.1 ≠ n) →
      names.foldl
          (fun d n =>
            match environ n with
            | some v => dictInsert d n v
            | none => d) acc
        = acc ++ names.filterMap (fun n => (environ n).map (fun v => (n, v)))
  | [], acc, _, _ => by simp
  | n :: names, acc, hnd, hdisj => by
    obtain ⟨hn, hnd2⟩ := List.nodup_cons.mp hnd
    cases he : environ n with
    | none =>
      simp only [List.foldl_cons, he]
      rw [env_foldl_eq environ names acc hnd2
        (fun m hm kv hkv => hdisj m (List.mem_cons_of_mem _ hm) kv hkv)]
      simp [List.filterMap_cons, he]
    | some v =>
      simp only [List.foldl_cons, he]
      have hany : acc.any (fun p => p.1 == n) = false := by
        rw [List.any_eq_false]
        intro kv hkv
        simp only [beq_iff_eq]
        exact hdisj n (List.mem_cons_self _ _) kv hkv
      have hins : dictInsert acc n v = acc ++ [(n, v)] := by
        unfold dictInsert
        rw [hany]
        simp
      rw [hins]
      rw [env_foldl_eq environ names (acc ++ [(n, v)]) hnd2 ?_]
      · simp [List.filterMap_cons, he]
      · intro m hm kv hkv
        rcases List.mem_append.mp hkv with h1 | h1
        · exact hdisj m (List.mem_cons_of_mem _ hm) kv h1
        · have h2 : kv = (n, v) := by simpa using h1
          rw [h2]
          intro hcontra
          rw [← hcontra] at hm
          exact hn hm

/-- The keys of the present-names dictionary are exactly the requested
names that are present, in request order. -/
theorem filterMap_env_keys (environ : String → Option String) (names : List String) :
    (names.filterMap (fun n => (environ n).map (fun v => (n, v)))).map Prod.fst
      = names.filter (fun n => (environ n).isSome) := by
  induction names with
  | nil => rfl
  | cons n names ih =>
    cases he : environ n with
    | none => simp [List.filterMap_cons, List.filter_cons, he, ih]
    | some v => simp [List.filterMap_cons, List.filter_cons, he, ih]

/-- Every pair in the present-names dictionary maps a name to its
environment value. -/
theorem filterMap_env_values (environ : String → Option String) (names : List String) :
    ∀ kv ∈ names.filterMap (fun n => (environ n).map (fun v => (n, v))),
      environ kv.1 = some kv.2 := by
  intro kv hkv
  simp only [List.mem_filterMap] at hkv
  obtain ⟨n, hn, hmap⟩ := hkv
  cases he : environ n with
  | none => rw [he] at hmap; cases hmap
  | some v =>
    rw [he] at hmap
    have h2 : (n, v) = kv := by simpa using hmap
    rw [← h2]
    exact he

/-- C9: for every environment and list of distinct names, get_env_vars
returns, without raising, the dictionary whose keys are exactly the
requested names present in the environment, in request order, each mapped
to its string value; an absent name is simply omitted. -/
theorem env_vars_present_only (environ : String → Option String) (names : List String)
    (hnd : names.Nodup) :
    get_env_vars environ names =
      Except.ok (names.filterMap (fun n => (environ n).map (fun v => (n, v))))
    ∧ (names.filterMap (fun n => (environ n).map (fun v => (n, v)))).map Prod.fst
        = names.filter (fun n => (environ n).isSome)
    ∧ ∀ kv ∈ names.filterMap (fun n => (environ n).map (fun v => (n, v))),
        environ kv.1 = some kv.2 := by
  refine ⟨?_, filterMap_env_keys environ names, filterMap_env_values environ names⟩
  unfold get_env_vars
  rw [env_foldl_eq environ names []
    (by exact hnd)
    (by intro n hn kv hkv; exact absurd hkv (List.not_mem_nil kv))]
  simp

/-- A concrete environment for the C9 witness. -/
def envEx : String → Option String := fun n => if n = "HOME" then some "/root" else none

theorem env_vars_present_only_witness :
    get_env_vars envEx ["HOME", "MISSING"] = Except.ok [("HOME", "/root")] := by
  have h := (env_vars_present_only envEx ["HOME", "MISSING"] (by decide)).1
  exact h.trans (congrArg Except.ok (by decide))

end FYP
